import Mathlib

/-!
Verification of the bicimad repository (src/bicimad/bicimad.py) against its
natural-language specification.

The embedding is shallow:

* a pandas cell is a `Cell` (an NA flag plus the Python string form of the
  value, as produced by Python's `str`); a NaN cell stringifies to `"nan"`;
* the `trip_minutes` column is numeric, embedded as `Option ℚ` (`none` = NaN;
  pandas `sum` skips NaN); floating point rounding is immaterial to the claims,
  which only relate sums and divisions by 60 computed the same way on both
  sides, so exact rationals are used;
* the datetime index `fecha` is a `Timestamp`: a calendar day (`day`, days
  since an epoch whose day 0 is a Monday) plus a time of day `tod` (`tod = 0`
  is midnight; `Timestamp.date` drops the time of day, as pandas `.date` does);
* a `DataFrame` is the list of its rows; the 15 columns selected by
  `BiciMad.csv_to_df` are the fields of `Row`, with `fecha` the index;
* pandas group-by results are embedded as association lists keyed by the
  group key; groups are listed in first-occurrence/`dedup` order (pandas sorts
  groups by key; none of the verified claims depends on the order of groups);
* the `set` results of Python are embedded as `Finset`;
* network and archive access (`requests.get`, `zipfile`) are external
  collaborators: `get_csv` takes the HTTP transport as an explicit function
  argument and additionally returns the list of URLs it actually requested,
  so that "no network fetch happened" is expressible;
* Python's `re.findall` for the one pattern used by `UrlEMT.get_links` is
  embedded as an executable left-to-right, non-overlapping scan with the lazy
  (shortest-first) semantics of `.*?`; `\d` is modelled as an ASCII digit and
  `[a-zA-Z]` as an ASCII letter (the source data is ASCII throughout);
* exceptions are embedded as `Except`/`Option` results.
-/

/-- One pandas cell: `isNA` marks a missing value (NaN); `str` is the Python
string form of the value when present. -/
structure Cell where
  isNA : Bool
  str : String
deriving DecidableEq, Repr

/-- Python's `str` applied to a cell: `str(nan) = "nan"`. -/
def Cell.pyStr (c : Cell) : String :=
  if c.isNA then "nan" else c.str

/-- A convenient constructor for a present (non-NA) cell. -/
def Cell.val (s : String) : Cell := ⟨false, s⟩

/-- A timestamp of the datetime index: a calendar day (days since an epoch
whose day 0 is a Monday) and a time of day (0 = midnight). -/
structure Timestamp where
  day : Nat
  tod : Nat
deriving DecidableEq, Repr

/-- The date portion of a timestamp (pandas `.date` / day-resolution value). -/
def Timestamp.date (t : Timestamp) : Nat := t.day

/-- English weekday name of a timestamp, as pandas `index.day_name()` returns
it (epoch day 0 is a Monday). -/
def Timestamp.dayName (t : Timestamp) : String :=
  match t.day % 7 with
  | 0 => "Monday"
  | 1 => "Tuesday"
  | 2 => "Wednesday"
  | 3 => "Thursday"
  | 4 => "Friday"
  | 5 => "Saturday"
  | _ => "Sunday"

/-- One row of the table built by `BiciMad.csv_to_df`: the `fecha` index and
the 15 selected columns, in the source's order. `trip_minutes` is numeric
(`none` = NaN); every other column is a generic cell. -/
structure Row where
  fecha : Timestamp
  idBike : Cell
  fleet : Cell
  trip_minutes : Option ℚ
  geolocation_unlock : Cell
  address_unlock : Cell
  unlock_date : Cell
  locktype : Cell
  unlocktype : Cell
  geolocation_lock : Cell
  address_lock : Cell
  lock_date : Cell
  station_unlock : Cell
  unlock_station_name : Cell
  station_lock : Cell
  lock_station_name : Cell
deriving DecidableEq, Repr

/-- A pandas DataFrame with the fixed column set, embedded as its row list. -/
abbrev DataFrame := List Row

/-- `dropna(how='all')` test: every one of the 15 column values of the row is
missing (the index is not a column and is not consulted). -/
def rowAllNA (r : Row) : Bool :=
  r.idBike.isNA && r.fleet.isNA && r.trip_minutes.isNone &&
  r.geolocation_unlock.isNA && r.address_unlock.isNA && r.unlock_date.isNA &&
  r.locktype.isNA && r.unlocktype.isNA && r.geolocation_lock.isNA &&
  r.address_lock.isNA && r.lock_date.isNA && r.station_unlock.isNA &&
  r.unlock_station_name.isNA && r.station_lock.isNA && r.lock_station_name.isNA

/-- Python's `str.replace(".0", "")` on the character list: removes every
occurrence of the two-character substring `".0"`, scanning left to right
without rescanning replaced text (exactly `str.replace` semantics; pandas
`.str.replace('.0', '', regex=False)` applies this per value). -/
def removeDotZeroL : List Char → List Char
  | [] => []
  | [c] => [c]
  | c :: d :: rest =>
    if c = '.' ∧ d = '0' then removeDotZeroL rest
    else c :: removeDotZeroL (d :: rest)

/-- Python's `str.replace(".0", "")` on strings. -/
def removeDotZero (s : String) : String := ⟨removeDotZeroL s.data⟩

/-- The per-cell effect of `BiciMad.clean` on the four identifier columns:
`.map(str)` followed by `.str.replace('.0', '', regex=False)`. The result is
a present string cell. -/
def cleanCell (c : Cell) : Cell := Cell.val (removeDotZero c.pyStr)

/-- The per-row effect of `BiciMad.clean`: the four identifier columns
`fleet`, `idBike`, `station_lock`, `station_unlock` pass through `cleanCell`;
every other field is untouched. -/
def cleanRow (r : Row) : Row :=
  { r with
    fleet := cleanCell r.fleet
    idBike := cleanCell r.idBike
    station_lock := cleanCell r.station_lock
    station_unlock := cleanCell r.station_unlock }

/-- `BiciMad.clean`: drop the rows whose 15 column values are all missing
(`dropna(how='all')`), then reformat the four identifier columns. -/
def clean (df : DataFrame) : DataFrame :=
  (df.filter (fun r => !rowAllNA r)).map cleanRow

/-- Sum of the `trip_minutes` column over a row list, pandas `sum` semantics:
missing values are skipped (count as 0), the empty sum is 0. -/
def sumMinutes (df : List Row) : ℚ :=
  df.foldr (fun r acc => r.trip_minutes.getD 0 + acc) 0

/-- Python's `f"{m:02}"`: decimal form zero-padded on the left to width 2. -/
def pad2 (m : Int) : String :=
  if 0 ≤ m ∧ m < 10 then "0" ++ toString m else toString m

/-- Python's substring test `pat in s`, on character lists: `pat` is a
contiguous substring of `s` (the empty pattern always occurs). -/
def containsSub : List Char → List Char → Bool
  | s, pat =>
    pat.isPrefixOf s ||
      match s with
      | [] => false
      | _ :: s' => containsSub s' pat

/-- Python's substring test `pat in s`, on strings. -/
def strContains (s pat : String) : Bool := containsSub s.data pat.data

/-- The distinct error values the modelled code raises. -/
inductive PyErr where
  | valueError (msg : String)
  | connectionError (msg : String)
  | keyError
deriving DecidableEq, Repr

instance {ε α : Type} [DecidableEq ε] [DecidableEq α] : DecidableEq (Except ε α) := fun a b =>
  match a, b with
  | .ok x, .ok y =>
    if h : x = y then .isTrue (by rw [h]) else .isFalse (fun hh => h (Except.ok.inj hh))
  | .error x, .error y =>
    if h : x = y then .isTrue (by rw [h]) else .isFalse (fun hh => h (Except.error.inj hh))
  | .ok _, .error _ => .isFalse (fun hh => Except.noConfusion hh)
  | .error _, .ok _ => .isFalse (fun hh => Except.noConfusion hh)

/-- The `UrlEMT.EMT` base origin constant. -/
def EMT : String := "https://opendata.emtmadrid.es/"

/-- Message of the month-validation `ValueError` in `UrlEMT.get_url`. -/
def monthErrMsg : String := "El mes debe ser un número entre 1 y 12."

/-- Message of the year-validation `ValueError` in `UrlEMT.get_url`. -/
def yearErrMsg : String := "El año debe ser 21, 22 o 23."

/-- Message of the no-valid-link `ValueError` in `UrlEMT.get_url`. -/
def noLinkMsg (month year : Int) : String :=
  "No existe un enlace valido para el mes " ++ toString month ++
    " del año " ++ toString year

/-- The `search_str` local of `UrlEMT.get_url`: `f"{year}_{month:02}"`. -/
def searchStr (month year : Int) : String :=
  toString year ++ "_" ++ pad2 month

/-- `UrlEMT.get_url`. The stored set `self.enlaces_validos` is embedded as the
list `links` in the set's iteration order. Validates the month, then the
year; on success scans the stored links and returns the first one containing
the substring `f"{year}_{month:02}"`; raising is embedded as `Except.error`. -/
def get_url (links : List String) (month year : Int) : Except PyErr String :=
  if ¬ (1 ≤ month ∧ month ≤ 12) then
    .error (.valueError monthErrMsg)
  else if year ∉ ([21, 22, 23] : List Int) then
    .error (.valueError yearErrMsg)
  else
    match links.find? (fun url => strContains url (searchStr month year)) with
    | some url => .ok url
    | none => .error (.valueError (noLinkMsg month year))

/-- The fixed 12-entry month-name dictionary of `UrlEMT.get_name_csv`;
`none` embeds the `KeyError` a lookup outside 1..12 would raise. -/
def month_name_mapping (month : Int) : Option String :=
  if month = 1 then some "January"
  else if month = 2 then some "February"
  else if month = 3 then some "March"
  else if month = 4 then some "April"
  else if month = 5 then some "May"
  else if month = 6 then some "June"
  else if month = 7 then some "July"
  else if month = 8 then some "August"
  else if month = 9 then some "September"
  else if month = 10 then some "October"
  else if month = 11 then some "November"
  else if month = 12 then some "December"
  else none

/-- `UrlEMT.get_name_csv`: `f"trips_{year}_{month:02}_{month_name}.csv"`. -/
def get_name_csv (month year : Int) : Option String :=
  (month_name_mapping month).map fun month_name =>
    "trips_" ++ toString year ++ "_" ++ pad2 month ++ "_" ++ month_name ++ ".csv"

/-- An HTTP response, as far as `UrlEMT.get_csv` consumes one: the status
code, and the body already viewed through the external ZIP/UTF-8 decoding
collaborators as an association list from entry name to decoded entry text. -/
structure HttpResponse where
  status : Int
  zipEntries : List (String × String)

/-- `UrlEMT.get_csv`. The HTTP transport `requests.get` is the explicit
argument `http`. Besides the result (the decoded CSV text of the ZIP entry
named by `get_name_csv`, or the raised error), it returns the list of URLs
actually requested over the network, in request order, so that the absence
of any external effect is expressible. A missing ZIP entry is the `KeyError`
that `zipfile.ZipFile.open` would raise. -/
def get_csv (links : List String) (http : String → HttpResponse)
    (month year : Int) : Except PyErr String × List String :=
  match get_url links month year with
  | .error e => (.error e, [])
  | .ok url =>
    let resp := http url
    if resp.status ≠ 200 then
      (.error (.connectionError
        ("Failed to connect to " ++ url ++ ", status code: " ++ toString resp.status)), [url])
    else
      match get_name_csv month year with
      | none => (.error .keyError, [url])
      | some name_csv =>
        match resp.zipEntries.lookup name_csv with
        | some contents => (.ok contents, [url])
        | none => (.error .keyError, [url])

/-- Strip a literal prefix from a character list, returning the remainder. -/
def stripLit : List Char → List Char → Option (List Char)
  | [], cs => some cs
  | _ :: _, [] => none
  | p :: ps, c :: cs => if c = p then stripLit ps cs else none

/-- Match the tail `trips_\d{2}_\d{2}_[a-zA-Z]+-csv\.aspx` of the
`UrlEMT.get_links` pattern at the head of `cs`: two ASCII digits, `_`, two
ASCII digits, `_`, a maximal nonempty ASCII letter run (`takeWhile`; the
regex `[a-zA-Z]+` is greedy, and shrinking the run can never make the
following literal `-csv.aspx` match, since the run is always followed by a
non-letter), then the literal `-csv.aspx`. Returns the matched characters
and the rest of the input. -/
def matchTail (cs : List Char) : Option (List Char × List Char) :=
  match stripLit "trips_".data cs with
  | none => none
  | some cs1 =>
    match cs1 with
    | d1 :: d2 :: '_' :: d3 :: d4 :: '_' :: cs2 =>
      if d1.isDigit && d2.isDigit && d3.isDigit && d4.isDigit then
        if (cs2.takeWhile (fun c => c.isAlpha)).isEmpty then none
        else
          match stripLit "-csv.aspx".data (cs2.dropWhile (fun c => c.isAlpha)) with
          | none => none
          | some rest =>
            some ("trips_".data ++ d1 :: d2 :: '_' :: d3 :: d4 :: '_' ::
              cs2.takeWhile (fun c => c.isAlpha) ++ "-csv.aspx".data, rest)
      else none
    | _ => none

/-- The lazy `.*?` of the `UrlEMT.get_links` pattern followed by its tail:
at each position, first try `matchTail`; on failure consume one more
character into the middle part, which (Python `.` without `DOTALL`) may be
anything but a newline. `acc` holds the middle characters consumed so far,
reversed. Returns the characters matched from the start of `.*?` on, and the
rest of the input. -/
def lazyTail (acc : List Char) : List Char → Option (List Char × List Char)
  | [] =>
    match matchTail [] with
    | some (m, rest) => some (acc.reverse ++ m, rest)
    | none => none
  | c :: cs' =>
    match matchTail (c :: cs') with
    | some (m, rest) => some (acc.reverse ++ m, rest)
    | none => if c = '\n' then none else lazyTail (c :: acc) cs'

/-- Try the whole `get_links` pattern
`getattachment/.*?trips_\d{2}_\d{2}_[a-zA-Z]+-csv\.aspx` at the current
position: the literal `getattachment/`, then the lazy middle and the tail. -/
def tryMatch (cs : List Char) : Option (List Char) :=
  match stripLit "getattachment/".data cs with
  | none => none
  | some cs1 =>
    match lazyTail [] cs1 with
    | none => none
    | some (m, _) => some ("getattachment/".data ++ m)

/-- The scan of Python's `re.findall`: walk the text left to right; at each
position not swallowed by a previous match (`skip` counts positions still to
swallow), emit the match attempted at that position if it succeeds and resume
after its end, else move one character forward. -/
def scanMatches : List Char → Nat → List (List Char)
  | [], _ => []
  | _ :: cs, Nat.succ skip => scanMatches cs skip
  | cs@(_ :: cs'), 0 =>
    match tryMatch cs with
    | some m => m :: scanMatches cs' (m.length - 1)
    | none => scanMatches cs' 0

/-- `re.findall(pattern, html)` for the `UrlEMT.get_links` pattern: the list
of matched substrings, in match order. -/
def findall (html : String) : List (List Char) := scanMatches html.data 0

/-- `UrlEMT.get_links`: the set of matches of the pattern, each prefixed with
the `EMT` base origin. -/
def get_links (html : String) : Finset String :=
  ((findall html).map (fun link => EMT ++ String.mk link)).toFinset

/-- A heterogeneous Python value, as stored in the `resume` series. -/
inductive PyVal where
  | int (n : Int)
  | nat (n : Nat)
  | rat (q : ℚ)
  | cellset (s : Finset Cell)
deriving DecidableEq

/-- The state of a `BiciMad` instance: the bound month and year, the owned
table `self._data`, and the optional extra `dia` column that
`weekday_time` assigns (`self._data['dia'] = ...`), held apart from the fixed
15 columns as the parallel list of its per-row values (`none` = the column
does not exist). -/
structure BiciMad where
  month : Int
  year : Int
  _data : DataFrame
  _dia : Option (List String)
deriving DecidableEq

/-- `BiciMad.__init__` with the network collaborators factored out: the raw
parsed table (what `BiciMad.get_data` would have produced from the CSV) is
passed in directly, and the constructor performs the in-place `self.clean()`.
A raw table parsed by `csv_to_df` never has a `dia` column. -/
def BiciMad.construct (month year : Int) (raw : DataFrame) : BiciMad :=
  { month := month, year := year, _data := clean raw, _dia := none }

/-- The keys of `df.groupby('station_unlock')`: the distinct station values,
with missing keys dropped (pandas `groupby` default `dropna=True`). -/
def unlockKeys (df : DataFrame) : List Cell :=
  ((df.filter (fun r => !r.station_unlock.isNA)).map (fun r => r.station_unlock)).dedup

/-- The size of one `station_unlock` group: the number of rows carrying that
key. -/
def unlockGroupSize (df : DataFrame) (k : Cell) : Nat :=
  (df.filter (fun r => r.station_unlock == k)).length

/-- `result['count'].max()`: the maximum group size over the groups (0 when
there are no groups; then no count equals a missing maximum, matching pandas
where `max()` of an empty column is NaN and the equality filter keeps
nothing — both yield an empty top list overall, see the claim proofs). -/
def maxUnlockCount (df : DataFrame) : Nat :=
  ((unlockKeys df).map (unlockGroupSize df)).foldr max 0

/-- `BiciMad.get_most_popular_stations`: group by `station_unlock`, take all
stations whose group size is the maximum, keep the rows unlocked at those
stations (`isin`), and return the set of their `address_unlock` values.
The method assigns nothing to `self._data`, so the state comes back
unchanged. -/
def BiciMad.get_most_popular_stations (b : BiciMad) : Finset Cell × BiciMad :=
  let df := b._data
  let top_stations :=
    (unlockKeys df).filter (fun k => unlockGroupSize df k == maxUnlockCount df)
  let filtered_df := df.filter (fun r => top_stations.contains r.station_unlock)
  ((filtered_df.map (fun r => r.address_unlock)).toFinset, b)

/-- `BiciMad.get_uses_from_most_populars`: the number of rows whose
`address_unlock` lies in the set returned by `get_most_popular_stations`.
No assignment to `self._data`. -/
def BiciMad.get_uses_from_most_populars (b : BiciMad) : Nat × BiciMad :=
  let df := b._data
  let top_adresses := (b.get_most_popular_stations).1
  ((df.filter (fun r => decide (r.address_unlock ∈ top_adresses))).length, b)

/-- `BiciMad.resume`: the series with the six fixed labels, filled with the
year, the month, the row count, the total trip time in hours, and the two
popular-station statistics. No assignment to `self._data`. -/
def BiciMad.resume (b : BiciMad) : List (String × PyVal) × BiciMad :=
  ([("year", .int b.year),
    ("month", .int b.month),
    ("total_uses", .nat b._data.length),
    ("total_time", .rat (sumMinutes b._data / 60)),
    ("most_popular_station", .cellset (b.get_most_popular_stations).1),
    ("uses_from_most_popular", .nat (b.get_uses_from_most_populars).1)], b)

/-- `BiciMad.day_time`: `data.groupby(data.index)['trip_minutes'].sum() / 60`.
The grouping key is the raw index value — the full `fecha` timestamp, not its
date portion. Groups are listed in `dedup` order (pandas sorts groups by key;
no verified claim depends on group order). The subsequent
`pd.to_datetime(horas.index)` is the identity on an already-datetime index,
and `rename("trip_hours")` only sets the series name, which is not modelled.
No assignment to `self._data`. -/
def BiciMad.day_time (b : BiciMad) : List (Timestamp × ℚ) × BiciMad :=
  let data := b._data
  ((data.map (fun r => r.fecha)).dedup.map
    (fun t => (t, sumMinutes (data.filter (fun r => r.fecha == t)) / 60)), b)

/-- The weekday dictionary of `BiciMad.weekday_time`; `none` embeds the
`KeyError` a lookup outside the seven English day names would raise. -/
def weekdayMapping (s : String) : Option String :=
  if s = "Monday" then some "L"
  else if s = "Tuesday" then some "M"
  else if s = "Wednesday" then some "X"
  else if s = "Thursday" then some "J"
  else if s = "Friday" then some "V"
  else if s = "Saturday" then some "S"
  else if s = "Sunday" then some "D"
  else none

/-- The per-row value of the `dia` column: `mapping[day_name]`. The default
branch is unreachable because `Timestamp.dayName` only produces the seven
dictionary keys. -/
def diaOf (t : Timestamp) : String := (weekdayMapping t.dayName).getD ""

/-- `BiciMad.weekday_time`: assigns the `dia` column on `self._data`
(`data['dia'] = data.index.day_name().map(...)` — this mutates the stored
table), then groups by `dia` and sums `trip_minutes / 60` per group. -/
def BiciMad.weekday_time (b : BiciMad) : List (String × ℚ) × BiciMad :=
  let data := b._data
  let dias := data.map (fun r => diaOf r.fecha)
  (dias.dedup.map
    (fun d => (d, sumMinutes (data.filter (fun r => diaOf r.fecha == d)) / 60)),
   { b with _dia := some dias })

/-- `BiciMad.total_usage_day`: `data.groupby(data.index.date)["idBike"].size()`
— here the grouping key is the date portion — and the index is then turned
back into datetimes (midnight timestamps). `.size()` counts the rows of each
group. No assignment to `self._data`. -/
def BiciMad.total_usage_day (b : BiciMad) : List (Timestamp × Nat) × BiciMad :=
  let data := b._data
  ((data.map (fun r => r.fecha.date)).dedup.map
    (fun d => (⟨d, 0⟩, (data.filter (fun r => r.fecha.date == d)).length)), b)

/-- `BiciMad.total_usage_day_station_unlock`: group by the day bin of the
index (`pd.Grouper(freq='D')` floors the timestamp to its day) and by
`station_unlock` (missing station keys dropped), count rows per observed
combination. The groupby result is reassigned to a local name and its
`set_index` mutates only that local frame. No assignment to `self._data`. -/
def BiciMad.total_usage_day_station_unlock (b : BiciMad) :
    List (Timestamp × Cell × Nat) × BiciMad :=
  let data := b._data
  let rows := data.filter (fun r => !r.station_unlock.isNA)
  let keys := (rows.map (fun r => (r.fecha.date, r.station_unlock))).dedup
  (keys.map (fun k =>
    ((⟨k.1, 0⟩ : Timestamp), k.2,
      (rows.filter (fun r => (r.fecha.date, r.station_unlock) == k)).length)), b)

/-- Modelled from the spec (for comparison with `BiciMad.day_time`): the
grouping the `hours_per_day()` sentence describes — group rows by calendar
day, the date portion of the row's index, and sum trip minutes divided by 60
per day. -/
def day_time_calendar (df : DataFrame) : List (Nat × ℚ) :=
  (df.map (fun r => r.fecha.date)).dedup.map
    (fun d => (d, sumMinutes (df.filter (fun r => r.fecha.date == d)) / 60))

/-- Does `tl` consist exactly of the tail of the `get_links` pattern:
`trips_` + two ASCII digits + `_` + two ASCII digits + `_` + a nonempty
ASCII letter run + `-csv.aspx`, with nothing after it? (Because a letter run
is always followed by the non-letter `-`, any valid decomposition has the
maximal run, so checking the maximal run loses no generality.) -/
def tailFormB (tl : List Char) : Bool :=
  match stripLit "trips_".data tl with
  | none => false
  | some cs1 =>
    match cs1 with
    | d1 :: d2 :: '_' :: d3 :: d4 :: '_' :: cs2 =>
      d1.isDigit && d2.isDigit && d3.isDigit && d4.isDigit &&
        !(cs2.takeWhile (fun c => c.isAlpha)).isEmpty &&
        (cs2.dropWhile (fun c => c.isAlpha) == "-csv.aspx".data)
    | _ => false

/-- Does `s`, as a whole, match the pattern
`getattachment/<anything>trips_<2-digit>_<2-digit>_<letters>-csv.aspx` of the
Link Extractor's contract: the literal `getattachment/`, then an arbitrary
character sequence, then the tail form ending the string. (The middle part is
read charitably as truly arbitrary — newlines included.) -/
def specMatchesB (s : List Char) : Bool :=
  match stripLit "getattachment/".data s with
  | none => false
  | some r => (List.range (r.length + 1)).any (fun k => tailFormB (r.drop k))

/-- A fully populated row with placeholder values, from which the concrete
test tables below are built by overriding fields. -/
def baseRow : Row where
  fecha := ⟨0, 0⟩
  idBike := Cell.val "1"
  fleet := Cell.val "1"
  trip_minutes := some 0
  geolocation_unlock := Cell.val "g"
  address_unlock := Cell.val "a"
  unlock_date := Cell.val "d"
  locktype := Cell.val "t"
  unlocktype := Cell.val "t"
  geolocation_lock := Cell.val "g"
  address_lock := Cell.val "a"
  lock_date := Cell.val "d"
  station_unlock := Cell.val "1"
  unlock_station_name := Cell.val "n"
  station_lock := Cell.val "1"
  lock_station_name := Cell.val "n"

/-- A row all of whose 15 column values are missing. -/
def naRow : Row where
  fecha := ⟨0, 0⟩
  idBike := ⟨true, ""⟩
  fleet := ⟨true, ""⟩
  trip_minutes := none
  geolocation_unlock := ⟨true, ""⟩
  address_unlock := ⟨true, ""⟩
  unlock_date := ⟨true, ""⟩
  locktype := ⟨true, ""⟩
  unlocktype := ⟨true, ""⟩
  geolocation_lock := ⟨true, ""⟩
  address_lock := ⟨true, ""⟩
  lock_date := ⟨true, ""⟩
  station_unlock := ⟨true, ""⟩
  unlock_station_name := ⟨true, ""⟩
  station_lock := ⟨true, ""⟩
  lock_station_name := ⟨true, ""⟩

/-- A one-row raw table whose `idBike` string form is `"10.01"`: it has no
trailing `".0"`, yet cleaning changes it. -/
def c1Raw : DataFrame := [{ baseRow with idBike := Cell.val "10.01" }]

/-- A two-row raw table with both rows on the same calendar day but at
different times of day (time-of-day 0 and 1), 60 trip minutes each. -/
def c2Raw : DataFrame :=
  [{ baseRow with fecha := ⟨0, 0⟩, trip_minutes := some 60 },
   { baseRow with fecha := ⟨0, 1⟩, trip_minutes := some 60 }]

/-- A two-row raw table on two consecutive calendar days, both at midnight. -/
def c2RawMidnight : DataFrame :=
  [{ baseRow with fecha := ⟨0, 0⟩, trip_minutes := some 60 },
   { baseRow with fecha := ⟨1, 0⟩, trip_minutes := some 30 }]

/-- A one-row raw table (used to exhibit the `weekday_time` mutation). -/
def c3Raw : DataFrame := [baseRow]

/-- A one-row raw table whose surviving row has missing values in all four
identifier columns but a present unlock address. -/
def c9Raw : DataFrame := [{ naRow with address_unlock := Cell.val "Calle" }]

/-- HTML consisting of two overlapping occurrences of the `get_links`
pattern: the whole text matches the pattern (with the middle part swallowing
the first tail and the separator `X`), and so does its 38-character prefix. -/
def c7Html : String :=
  "getattachment/trips_11_22_Nov-csv.aspxXtrips_11_22_Nov-csv.aspx"

/-- The Python substring test agrees with list-infix: `pat in s` holds exactly
when `pat`'s characters form a contiguous substring of `s`'s. -/
theorem containsSub_iff (pat : List Char) :
    ∀ s, containsSub s pat = true ↔ pat <:+: s := by
  intro s
  induction s with
  | nil =>
    simp [containsSub]
  | cons c s ih =>
    rw [containsSub]
    simp [ih, List.infix_cons_iff]

/-- `strContains` on strings agrees with character-list infix. -/
theorem strContains_iff (s pat : String) :
    strContains s pat = true ↔ pat.data <:+: s.data :=
  containsSub_iff pat.data s.data

/-- C8: for every month in 1..12 and every year, `get_name_csv` produces
`trips_<year>_<zero-padded month>_<name>.csv` with the name drawn from the
fixed 12-entry English month table, and in particular
`csv_filename(9, 25) = "trips_25_09_September.csv"` and
`csv_filename(1, 21) = "trips_21_01_January.csv"`. -/
theorem C8_csv_filename :
    (∀ month year : Int, 1 ≤ month → month ≤ 12 →
      ∃ name, month_name_mapping month = some name ∧
        get_name_csv month year =
          some ("trips_" ++ toString year ++ "_" ++ pad2 month ++ "_" ++ name ++ ".csv")) ∧
    get_name_csv 9 25 = some "trips_25_09_September.csv" ∧
    get_name_csv 1 21 = some "trips_21_01_January.csv" := by
  refine ⟨?_, by decide, by decide⟩
  intro month year h1 h2
  interval_cases month <;>
    exact ⟨_, rfl, rfl⟩

/-- Witness for C8 at the concrete input (9, 25). -/
theorem C8_csv_filename_witness :
    ∃ name, month_name_mapping 9 = some name ∧
      get_name_csv 9 25 =
        some ("trips_" ++ toString (25 : Int) ++ "_" ++ pad2 9 ++ "_" ++ name ++ ".csv") :=
  C8_csv_filename.1 9 25 (by decide) (by decide)

/-- C4: for every catalog and (month, year): an out-of-range month or year
yields the corresponding validation `ValueError` independently of the stored
links; a valid pair returns the first stored URL containing the substring
`"<year>_<month zero-padded>"`, and if no stored URL contains it, the raised
`ValueError` message names the requested month and year. -/
theorem C4_get_url_resolution :
    ∀ (links : List String) (month year : Int),
      (¬ (1 ≤ month ∧ month ≤ 12) →
        get_url links month year = .error (.valueError monthErrMsg)) ∧
      ((1 ≤ month ∧ month ≤ 12) → year ∉ ([21, 22, 23] : List Int) →
        get_url links month year = .error (.valueError yearErrMsg)) ∧
      ((1 ≤ month ∧ month ≤ 12) → year ∈ ([21, 22, 23] : List Int) →
        (∀ u, get_url links month year = .ok u →
          (searchStr month year).data <:+: u.data ∧
          ∃ pre post, links = pre ++ u :: post ∧
            ∀ v ∈ pre, ¬ (searchStr month year).data <:+: v.data) ∧
        ((∀ u ∈ links, ¬ (searchStr month year).data <:+: u.data) →
          get_url links month year = .error (.valueError (noLinkMsg month year)))) := by
  intro links month year
  refine ⟨fun h => by simp [get_url, h], fun h1 h2 => by simp [get_url, h1, h2], ?_⟩
  intro h1 h2
  constructor
  · intro u hu
    have hfind : links.find? (fun url => strContains url (searchStr month year)) = some u := by
      revert hu
      simp only [get_url, h1, not_true_eq_false, if_false, h2, not_true_eq_false, if_neg,
        not_not]
      cases hf : links.find? (fun url => strContains url (searchStr month year)) with
      | none => intro hu; cases hu
      | some v => intro hu; cases hu; rfl
    rcases List.find?_eq_some.mp hfind with ⟨hp, pre, post, heq, hpre⟩
    refine ⟨(strContains_iff u _).mp hp, pre, post, heq, ?_⟩
    intro v hv hinf
    have := hpre v hv
    rw [(strContains_iff v _).mpr hinf] at this
    exact Bool.noConfusion this
  · intro hall
    have hfind : links.find? (fun url => strContains url (searchStr month year)) = none := by
      rw [List.find?_eq_none]
      intro v hv hc
      exact hall v hv ((strContains_iff v _).mp hc)
    simp [get_url, h1, h2, hfind]

/-- Witness for C4: the month-validation error, the year-validation error,
the first-match return, and the no-match error, each at a concrete input. -/
theorem C4_get_url_resolution_witness :
    get_url ["a21_05b"] 13 22 = .error (.valueError monthErrMsg) ∧
    get_url ["a21_05b"] 5 24 = .error (.valueError yearErrMsg) ∧
    ((searchStr 5 21).data <:+: "a21_05b".data ∧
      ∃ pre post, ["a21_05b"] = pre ++ "a21_05b" :: post ∧
        ∀ v ∈ pre, ¬ (searchStr 5 21).data <:+: v.data) ∧
    get_url ["a21_05b"] 11 22 = .error (.valueError (noLinkMsg 11 22)) :=
  ⟨(C4_get_url_resolution ["a21_05b"] 13 22).1 (by decide),
   (C4_get_url_resolution ["a21_05b"] 5 24).2.1 (by decide) (by decide),
   ((C4_get_url_resolution ["a21_05b"] 5 21).2.2 (by decide) (by decide)).1 "a21_05b" (by decide),
   ((C4_get_url_resolution ["a21_05b"] 11 22).2.2 (by decide) (by decide)).2 (by decide)⟩

/-- C10: an invalid month or year makes `get_csv` fail with the value error
raised by the internal `get_url` resolution step, and the list of URLs
actually requested over the network is empty — no fetch, ZIP decode or any
other external effect happens. -/
theorem C10_get_csv_no_fetch_on_invalid_input :
    ∀ (links : List String) (http : String → HttpResponse) (month year : Int),
      (¬ (1 ≤ month ∧ month ≤ 12) ∨ year ∉ ([21, 22, 23] : List Int)) →
      (get_csv links http month year).2 = [] ∧
      ∃ msg, (get_csv links http month year).1 = .error (.valueError msg) ∧
        get_url links month year = .error (.valueError msg) := by
  intro links http month year h
  by_cases hm : 1 ≤ month ∧ month ≤ 12
  · have h2 : year ∉ ([21, 22, 23] : List Int) := by
      rcases h with h | h
      · exact absurd hm h
      · exact h
    have hurl : get_url links month year = .error (.valueError yearErrMsg) := by
      simp [get_url, hm, h2]
    exact ⟨by simp [get_csv, hurl], yearErrMsg, by simp [get_csv, hurl], hurl⟩
  · have hurl : get_url links month year = .error (.valueError monthErrMsg) := by
      simp [get_url, hm]
    exact ⟨by simp [get_csv, hurl], monthErrMsg, by simp [get_csv, hurl], hurl⟩

/-- Witness for C10 at month 0 with a transport that would answer 200. -/
theorem C10_get_csv_no_fetch_on_invalid_input_witness :
    (get_csv ["a22_01b"] (fun u => ⟨200, [("x", u)]⟩) 0 22).2 = [] ∧
    ∃ msg, (get_csv ["a22_01b"] (fun u => ⟨200, [("x", u)]⟩) 0 22).1 =
        .error (.valueError msg) ∧
      get_url ["a22_01b"] 0 22 = .error (.valueError msg) :=
  C10_get_csv_no_fetch_on_invalid_input ["a22_01b"] (fun u => ⟨200, [("x", u)]⟩) 0 22
    (Or.inl (by decide))

/-- A string without any `'.'` passes through `str.replace(".0", "")`
unchanged. -/
theorem removeDotZeroL_dotfree :
    ∀ l : List Char, (∀ c ∈ l, c ≠ '.') → removeDotZeroL l = l
  | [], _ => rfl
  | [_], _ => rfl
  | c :: d :: rest, h => by
    rw [removeDotZeroL, if_neg (fun hcd => (h c (List.mem_cons_self _ _)) hcd.1),
      removeDotZeroL_dotfree (d :: rest) (fun x hx => h x (List.mem_cons_of_mem _ hx))]

/-- For a string without any `'.'`, `str.replace(".0", "")` strips exactly a
trailing `".0"`. -/
theorem removeDotZeroL_dotfree_append :
    ∀ l : List Char, (∀ c ∈ l, c ≠ '.') → removeDotZeroL (l ++ ['.', '0']) = l
  | [], _ => by
    rw [List.nil_append, removeDotZeroL, if_pos ⟨rfl, rfl⟩]
    rfl
  | [c], h => by
    simp only [List.cons_append, List.nil_append]
    rw [removeDotZeroL, if_neg (fun hcd => (h c (List.mem_cons_self _ _)) hcd.1),
      removeDotZeroL, if_pos ⟨rfl, rfl⟩]
    rfl
  | c :: d :: rest, h => by
    have hd := removeDotZeroL_dotfree_append (d :: rest)
      (fun x hx => h x (List.mem_cons_of_mem _ hx))
    simp only [List.cons_append] at hd ⊢
    rw [removeDotZeroL, if_neg (fun hcd => (h c (List.mem_cons_self _ _)) hcd.1), hd]

/-- String version of `removeDotZeroL_dotfree`. -/
theorem removeDotZero_dotfree (s : String) (h : ∀ c ∈ s.data, c ≠ '.') :
    removeDotZero s = s := by
  unfold removeDotZero
  rw [removeDotZeroL_dotfree s.data h]

/-- String version of `removeDotZeroL_dotfree_append`. -/
theorem removeDotZero_dotfree_append (s : String) (h : ∀ c ∈ s.data, c ≠ '.') :
    removeDotZero (s ++ ".0") = s := by
  unfold removeDotZero
  have hdata : (s ++ ".0").data = s.data ++ ['.', '0'] := by
    simp [String.data_append]
  rw [hdata, removeDotZeroL_dotfree_append s.data h]

/-- C1 counterexample: the identifier string `"10.01"` has no trailing `".0"`
suffix, yet the cleaning step rewrites it to `"101"` — the code removes every
occurrence of `".0"`, not only a trailing one — so the value is not left as
its plain string form, contradicting the claim. -/
theorem C1_counterexample :
    ¬ (['.', '0'] <:+ "10.01".data) ∧
    (BiciMad.construct 11 22 c1Raw)._data.map (fun r => r.idBike) = [Cell.val "101"] ∧
    Cell.val "101" ≠ Cell.val "10.01" := by
  refine ⟨by decide, by decide, by decide⟩

/-- C1 (amended): construction-time cleaning keeps exactly the rows that are
not entirely empty (both inclusions), rewrites only the four identifier
columns (through string conversion and removal of every `".0"` occurrence,
left to right, non-overlapping) while preserving all other fields, and for
values whose string form is free of `'.'` — optionally followed by the single
trailing `".0"` artifact of numeric conversion — this coincides with the
claimed behavior: the artifact is stripped, plain forms are unchanged, and
the result does not end in `".0"`. -/
theorem C1_clean_amended :
    ∀ (month year : Int) (raw : DataFrame),
      (∀ r, r ∈ raw → rowAllNA r = false →
        cleanRow r ∈ (BiciMad.construct month year raw)._data) ∧
      (∀ r', r' ∈ (BiciMad.construct month year raw)._data →
        ∃ r, r ∈ raw ∧ rowAllNA r = false ∧ r' = cleanRow r) ∧
      (∀ r : Row,
        (cleanRow r).fleet = cleanCell r.fleet ∧
        (cleanRow r).idBike = cleanCell r.idBike ∧
        (cleanRow r).station_lock = cleanCell r.station_lock ∧
        (cleanRow r).station_unlock = cleanCell r.station_unlock ∧
        (cleanRow r).fecha = r.fecha ∧
        (cleanRow r).trip_minutes = r.trip_minutes ∧
        (cleanRow r).address_unlock = r.address_unlock) ∧
      (∀ s : String, (∀ c ∈ s.data, c ≠ '.') →
        removeDotZero s = s ∧ removeDotZero (s ++ ".0") = s ∧
        ¬ (['.', '0'] <:+ (removeDotZero (s ++ ".0")).data)) := by
  intro month year raw
  refine ⟨?_, ?_, fun r => ⟨rfl, rfl, rfl, rfl, rfl, rfl, rfl⟩, ?_⟩
  · intro r hr hna
    refine List.mem_map_of_mem _ (List.mem_filter.mpr ⟨hr, ?_⟩)
    rw [hna]
    rfl
  · intro r' hr'
    obtain ⟨r, hrmem, hmap⟩ := List.mem_map.mp hr'
    obtain ⟨hraw, hpred⟩ := List.mem_filter.mp hrmem
    refine ⟨r, hraw, ?_, hmap.symm⟩
    revert hpred
    cases rowAllNA r <;> simp
  · intro s hs
    refine ⟨removeDotZero_dotfree s hs, removeDotZero_dotfree_append s hs, ?_⟩
    rw [removeDotZero_dotfree_append s hs]
    intro hsuf
    exact hs '.' (hsuf.subset (by simp)) rfl

/-- Witness for C1 (amended) at a concrete table: the surviving row of
`c9Raw` is kept by cleaning, and `removeDotZero` strips the trailing
artifact from `"216.0"` while leaving `"216"` unchanged. -/
theorem C1_clean_amended_witness :
    cleanRow { naRow with address_unlock := Cell.val "Calle" } ∈
      (BiciMad.construct 11 22 c9Raw)._data ∧
    removeDotZero "216" = "216" ∧
    removeDotZero ("216" ++ ".0") = "216" :=
  ⟨(C1_clean_amended 11 22 c9Raw).1 _ (by decide) (by decide),
   ((C1_clean_amended 11 22 c9Raw).2.2.2 "216" (by decide)).1,
   ((C1_clean_amended 11 22 c9Raw).2.2.2 "216" (by decide)).2.1⟩

/-- C9: cleaning maps the four identifier columns through Python string
conversion, so a missing value in one of them, on a row that survives
`dropna(how='all')`, becomes the literal string `"nan"` in the cleaned
table instead of staying missing. -/
theorem C9_missing_identifier_becomes_nan :
    ∀ (month year : Int) (raw : DataFrame) (r : Row), r ∈ raw → rowAllNA r = false →
      cleanRow r ∈ (BiciMad.construct month year raw)._data ∧
      (r.fleet.isNA = true → (cleanRow r).fleet = Cell.val "nan") ∧
      (r.idBike.isNA = true → (cleanRow r).idBike = Cell.val "nan") ∧
      (r.station_lock.isNA = true → (cleanRow r).station_lock = Cell.val "nan") ∧
      (r.station_unlock.isNA = true → (cleanRow r).station_unlock = Cell.val "nan") := by
  intro month year raw r hr hna
  have hmem : cleanRow r ∈ (BiciMad.construct month year raw)._data := by
    refine List.mem_map_of_mem _ (List.mem_filter.mpr ⟨hr, ?_⟩)
    rw [hna]
    rfl
  refine ⟨hmem, fun h => ?_, fun h => ?_, fun h => ?_, fun h => ?_⟩
  · show cleanCell r.fleet = Cell.val "nan"
    unfold cleanCell Cell.pyStr
    rw [h, if_pos rfl]
    decide
  · show cleanCell r.idBike = Cell.val "nan"
    unfold cleanCell Cell.pyStr
    rw [h, if_pos rfl]
    decide
  · show cleanCell r.station_lock = Cell.val "nan"
    unfold cleanCell Cell.pyStr
    rw [h, if_pos rfl]
    decide
  · show cleanCell r.station_unlock = Cell.val "nan"
    unfold cleanCell Cell.pyStr
    rw [h, if_pos rfl]
    decide

/-- Witness for C9: the all-but-address-empty row of `c9Raw` survives
cleaning with `"nan"` in all four identifier columns. -/
theorem C9_missing_identifier_becomes_nan_witness :
    cleanRow { naRow with address_unlock := Cell.val "Calle" } ∈
      (BiciMad.construct 11 22 c9Raw)._data ∧
    (cleanRow { naRow with address_unlock := Cell.val "Calle" }).fleet = Cell.val "nan" ∧
    (cleanRow { naRow with address_unlock := Cell.val "Calle" }).idBike = Cell.val "nan" :=
  ⟨(C9_missing_identifier_becomes_nan 11 22 c9Raw _ (by decide) (by decide)).1,
   (C9_missing_identifier_becomes_nan 11 22 c9Raw _ (by decide) (by decide)).2.1 (by decide),
   (C9_missing_identifier_becomes_nan 11 22 c9Raw _ (by decide) (by decide)).2.2.1 (by decide)⟩

/-- C3 counterexample: on a one-row dataset, calling `weekday_time` changes
the stored state — it adds the `dia` column (here the single letter `"J"`,
since epoch day 0 is a Monday and the claim's fixture is immaterial), which
was absent after construction-time cleaning. -/
theorem C3_counterexample :
    ((BiciMad.construct 11 22 c3Raw).weekday_time).2 ≠ BiciMad.construct 11 22 c3Raw ∧
    ((BiciMad.construct 11 22 c3Raw).weekday_time).2._dia = some ["L"] ∧
    (BiciMad.construct 11 22 c3Raw)._dia = none := by
  refine ⟨by decide, by decide, by decide⟩

/-- C3 (amended): every listed aggregation method except `weekday_time`
leaves the instance state — the cleaned table, the month and the year —
exactly as construction left it; `weekday_time` leaves the rows and the 15
original columns of the table unchanged and the month and year unchanged,
but adds the `dia` column holding each row's weekday letter. -/
theorem C3_read_only_amended :
    ∀ (month year : Int) (raw : DataFrame),
      ((BiciMad.construct month year raw).resume).2 = BiciMad.construct month year raw ∧
      ((BiciMad.construct month year raw).get_most_popular_stations).2 =
        BiciMad.construct month year raw ∧
      ((BiciMad.construct month year raw).get_uses_from_most_populars).2 =
        BiciMad.construct month year raw ∧
      ((BiciMad.construct month year raw).day_time).2 = BiciMad.construct month year raw ∧
      ((BiciMad.construct month year raw).total_usage_day).2 =
        BiciMad.construct month year raw ∧
      ((BiciMad.construct month year raw).total_usage_day_station_unlock).2 =
        BiciMad.construct month year raw ∧
      ((BiciMad.construct month year raw).weekday_time).2._data =
        (BiciMad.construct month year raw)._data ∧
      ((BiciMad.construct month year raw).weekday_time).2.month = month ∧
      ((BiciMad.construct month year raw).weekday_time).2.year = year ∧
      ((BiciMad.construct month year raw).weekday_time).2._dia =
        some (((BiciMad.construct month year raw)._data).map (fun r => diaOf r.fecha)) :=
  fun _ _ _ => ⟨rfl, rfl, rfl, rfl, rfl, rfl, rfl, rfl, rfl, rfl⟩

/-- C6: the summary series of `resume` carries the six labels in their fixed
order, and its entries are the year, the month, the cleaned table's row
count, the trip-minute sum divided by 60, and the two popular-station
statistics computed by the corresponding methods on the same instance. -/
theorem C6_resume_round_trip :
    ∀ (month year : Int) (raw : DataFrame),
      ((BiciMad.construct month year raw).resume).1.map Prod.fst =
        ["year", "month", "total_uses", "total_time", "most_popular_station",
         "uses_from_most_popular"] ∧
      ((BiciMad.construct month year raw).resume).1.lookup "year" = some (.int year) ∧
      ((BiciMad.construct month year raw).resume).1.lookup "month" = some (.int month) ∧
      ((BiciMad.construct month year raw).resume).1.lookup "total_uses" =
        some (.nat (BiciMad.construct month year raw)._data.length) ∧
      (BiciMad.construct month year raw)._data.length = (clean raw).length ∧
      ((BiciMad.construct month year raw).resume).1.lookup "total_time" =
        some (.rat (sumMinutes (BiciMad.construct month year raw)._data / 60)) ∧
      ((BiciMad.construct month year raw).resume).1.lookup "most_popular_station" =
        some (.cellset ((BiciMad.construct month year raw).get_most_popular_stations).1) ∧
      ((BiciMad.construct month year raw).resume).1.lookup "uses_from_most_popular" =
        some (.nat ((BiciMad.construct month year raw).get_uses_from_most_populars).1) := by
  intro month year raw
  refine ⟨rfl, ?_, ?_, ?_, rfl, ?_, ?_, ?_⟩ <;>
    simp [BiciMad.resume, List.lookup, BiciMad.construct]

/-- Every row of a cleaned table carries a present (non-missing)
`station_unlock` value, because cleaning maps that column through string
conversion. -/
theorem clean_station_unlock_not_na (raw : DataFrame) :
    ∀ r ∈ clean raw, r.station_unlock.isNA = false := by
  intro r hr
  obtain ⟨r0, _, hmap⟩ := List.mem_map.mp hr
  rw [← hmap]
  rfl

/-- On a table whose `station_unlock` values are all present, membership in
the top-stations list of `get_most_popular_stations` is, for any row of the
table, the same as having a group of maximal size. -/
theorem top_stations_contains_iff (df : DataFrame)
    (hna : ∀ r ∈ df, r.station_unlock.isNA = false) :
    ∀ r ∈ df,
      ((unlockKeys df).filter
          (fun k => unlockGroupSize df k == maxUnlockCount df)).contains r.station_unlock =
        (unlockGroupSize df r.station_unlock == maxUnlockCount df) := by
  intro r hr
  have hkmem : r.station_unlock ∈ unlockKeys df := by
    unfold unlockKeys
    refine List.mem_dedup.mpr (List.mem_map_of_mem _ (List.mem_filter.mpr ⟨hr, ?_⟩))
    rw [hna r hr]
    rfl
  by_cases hc : unlockGroupSize df r.station_unlock = maxUnlockCount df
  · have hmem : r.station_unlock ∈ (unlockKeys df).filter
        (fun k => unlockGroupSize df k == maxUnlockCount df) :=
      List.mem_filter.mpr ⟨hkmem, by simp [hc]⟩
    simp [List.contains, List.elem_iff, hmem, hc]
  · have hnmem : r.station_unlock ∉ (unlockKeys df).filter
        (fun k => unlockGroupSize df k == maxUnlockCount df) := by
      intro hmem
      exact hc (by simpa using (List.mem_filter.mp hmem).2)
    simp [List.contains, List.elem_iff, hnmem, hc]

/-- C5: `get_most_popular_stations` returns exactly the unlock addresses of
the rows whose unlock station's group size equals the maximum group size
(all stations tied at the maximum included), and
`get_uses_from_most_populars` counts the rows whose unlock address lies in
that set. -/
theorem C5_most_popular_stations :
    ∀ (month year : Int) (raw : DataFrame),
      ((BiciMad.construct month year raw).get_most_popular_stations).1 =
        (((BiciMad.construct month year raw)._data.filter
            (fun r => unlockGroupSize (BiciMad.construct month year raw)._data r.station_unlock ==
              maxUnlockCount (BiciMad.construct month year raw)._data)).map
          (fun r => r.address_unlock)).toFinset ∧
      ((BiciMad.construct month year raw).get_uses_from_most_populars).1 =
        ((BiciMad.construct month year raw)._data.filter
          (fun r => decide (r.address_unlock ∈
            ((BiciMad.construct month year raw).get_most_popular_stations).1))).length := by
  intro month year raw
  refine ⟨?_, rfl⟩
  have hna : ∀ r ∈ (BiciMad.construct month year raw)._data, r.station_unlock.isNA = false :=
    clean_station_unlock_not_na raw
  show ((((BiciMad.construct month year raw)._data.filter
      (fun r => ((unlockKeys (BiciMad.construct month year raw)._data).filter
        (fun k => unlockGroupSize (BiciMad.construct month year raw)._data k ==
          maxUnlockCount (BiciMad.construct month year raw)._data)).contains
            r.station_unlock)).map (fun r => r.address_unlock)).toFinset = _)
  rw [List.filter_congr
    (top_stations_contains_iff (BiciMad.construct month year raw)._data hna)]

/-- C2 counterexample: on a cleaned table with two rows in the same calendar
day at different times of day (60 trip minutes each), `day_time` returns two
entries — one per distinct raw timestamp — of one hour each, while grouping
by calendar day as the claim describes would return the single entry
(day 0, 2 hours): `day_time` groups by the raw index value, not by its date
portion. -/
theorem C2_counterexample :
    ((BiciMad.construct 11 22 c2Raw).day_time).1.map (fun p => p.1.date) = [0, 0] ∧
    ((BiciMad.construct 11 22 c2Raw).day_time).1.map Prod.snd = [1, 1] ∧
    day_time_calendar (BiciMad.construct 11 22 c2Raw)._data = [(0, 2)] := by
  refine ⟨by decide, ?_, ?_⟩ <;>
    · simp +decide [BiciMad.day_time, BiciMad.construct, day_time_calendar, clean, c2Raw,
        baseRow, cleanRow, cleanCell, Cell.pyStr, Cell.val, rowAllNA, sumMinutes,
        removeDotZero, removeDotZeroL, List.dedup, List.filter, beq_eq_decide,
        Timestamp.date]
      try norm_num

/-- When every row's timestamp is at midnight, grouping by the raw index
value coincides with grouping by the calendar day: the index grouping of
`day_time` equals the spec's calendar-day grouping with each day read as its
midnight timestamp. -/
theorem day_time_midnight_helper (df : DataFrame) (h : ∀ r ∈ df, r.fecha.tod = 0) :
    (df.map (fun r => r.fecha)).dedup.map
        (fun t => (t, sumMinutes (df.filter (fun r => r.fecha == t)) / 60)) =
      (day_time_calendar df).map (fun p => ((⟨p.1, 0⟩ : Timestamp), p.2)) := by
  have hemb : Function.Injective (fun d => (⟨d, 0⟩ : Timestamp)) := by
    intro a b hab
    exact congrArg Timestamp.day hab
  have hfecha : ∀ r ∈ df, r.fecha = (⟨r.fecha.date, 0⟩ : Timestamp) := by
    intro r hr
    have ht := h r hr
    rcases hfe : r.fecha with ⟨a, t⟩
    rw [hfe] at ht
    rw [show (⟨a, t⟩ : Timestamp).tod = t from rfl] at ht
    show (⟨a, t⟩ : Timestamp) = ⟨(⟨a, t⟩ : Timestamp).date, 0⟩
    rw [show (⟨a, t⟩ : Timestamp).date = a from rfl, ht]
  have step1 : df.map (fun r => r.fecha) =
      (df.map (fun r => r.fecha.date)).map (fun d => (⟨d, 0⟩ : Timestamp)) := by
    rw [List.map_map]
    exact List.map_congr_left hfecha
  rw [step1, List.dedup_map_of_injective hemb, List.map_map, day_time_calendar,
    List.map_map]
  apply List.map_congr_left
  intro d _
  simp only [Function.comp]
  have hfilter : df.filter (fun r => r.fecha == (⟨d, 0⟩ : Timestamp)) =
      df.filter (fun r => r.fecha.date == d) := by
    apply List.filter_congr
    intro r hr
    show (r.fecha == (⟨d, 0⟩ : Timestamp)) = (r.fecha.date == d)
    rw [hfecha r hr]
    generalize r.fecha.date = a
    show ((⟨a, 0⟩ : Timestamp) == ⟨d, 0⟩) = ((⟨a, 0⟩ : Timestamp).date == d)
    by_cases had : a = d
    · subst had
      simp [Timestamp.date]
    · simp [beq_iff_eq, Timestamp.mk.injEq, Timestamp.date, had]
  rw [hfilter]

/-- C2 (amended): `day_time` groups rows by the raw index value — the full
unlock timestamp — summing trip minutes over 60 per distinct timestamp; when
every timestamp of the cleaned table is at day resolution (midnight), this
coincides with the calendar-day grouping the claim describes, each calendar
day read as its midnight timestamp. -/
theorem C2_hours_per_day_amended :
    ∀ (month year : Int) (raw : DataFrame),
      (∀ r ∈ (BiciMad.construct month year raw)._data, r.fecha.tod = 0) →
      ((BiciMad.construct month year raw).day_time).1 =
        (day_time_calendar (BiciMad.construct month year raw)._data).map
          (fun p => ((⟨p.1, 0⟩ : Timestamp), p.2)) := by
  intro month year raw h
  exact day_time_midnight_helper _ h

/-- Witness for C2 (amended) on a concrete two-day midnight table, together
with the concrete value of the grouping: one hour on day 0, half an hour on
day 1. -/
theorem C2_hours_per_day_amended_witness :
    ((BiciMad.construct 11 22 c2RawMidnight).day_time).1 =
      (day_time_calendar (BiciMad.construct 11 22 c2RawMidnight)._data).map
        (fun p => ((⟨p.1, 0⟩ : Timestamp), p.2)) ∧
    ((BiciMad.construct 11 22 c2RawMidnight).day_time).1 =
      [(⟨0, 0⟩, 1), (⟨1, 0⟩, 1 / 2)] := by
  refine ⟨C2_hours_per_day_amended 11 22 c2RawMidnight (by decide), ?_⟩
  simp +decide [BiciMad.day_time, BiciMad.construct, clean, c2RawMidnight, baseRow,
    cleanRow, cleanCell, Cell.pyStr, Cell.val, rowAllNA, sumMinutes, removeDotZero,
    removeDotZeroL, List.dedup, List.filter, beq_eq_decide]
  norm_num

/-- A successful literal strip decomposes the input. -/
theorem stripLit_sound :
    ∀ p cs rest : List Char, stripLit p cs = some rest → cs = p ++ rest
  | [], cs, rest => by
    intro h
    cases h
    rfl
  | _ :: _, [], rest => by
    intro h
    cases h
  | p :: ps, c :: cs, rest => by
    intro h
    rw [stripLit] at h
    by_cases hc : c = p
    · rw [if_pos hc] at h
      rw [List.cons_append, ← stripLit_sound ps cs rest h, hc]
    · rw [if_neg hc] at h
      cases h

/-- Stripping a literal off itself plus a remainder succeeds. -/
theorem stripLit_append :
    ∀ p x : List Char, stripLit p (p ++ x) = some x
  | [], x => rfl
  | p :: ps, x => by
    rw [List.cons_append, stripLit, if_pos rfl]
    exact stripLit_append ps x

/-- `takeWhile`/`dropWhile` over a satisfying block followed by a failing
element split exactly at the block boundary. -/
theorem takeWhile_dropWhile_all_append {p : Char → Bool} (y : Char) (hy : p y = false) :
    ∀ ls l2 : List Char, (∀ x ∈ ls, p x = true) →
      (ls ++ y :: l2).takeWhile p = ls ∧ (ls ++ y :: l2).dropWhile p = y :: l2
  | [], l2 => by
    intro _
    constructor
    · simp [List.takeWhile_cons, hy]
    · simp [List.dropWhile_cons, hy]
  | x :: ls, l2 => by
    intro hall
    have hx : p x = true := hall x (List.mem_cons_self _ _)
    have ih := takeWhile_dropWhile_all_append y hy ls l2
      (fun z hz => hall z (List.mem_cons_of_mem _ hz))
    constructor
    · simp [List.takeWhile_cons, hx, ih.1]
    · simp [List.dropWhile_cons, hx, ih.2]

/-- A successful `matchTail` decomposes its input into the matched tail and
the remainder, and the matched part has the exact tail form. -/
theorem matchTail_sound (cs m rest : List Char) (h : matchTail cs = some (m, rest)) :
    cs = m ++ rest ∧ tailFormB m = true := by
  unfold matchTail at h
  split at h
  next hs => exact absurd h (by simp)
  next cs1 hs =>
    split at h
    next d1 d2 d3 d4 cs2 =>
      split at h
      next hd =>
        split at h
        next hne => exact absurd h (by simp)
        next hne =>
          split at h
          next hstrip => exact absurd h (by simp)
          next r2 hstrip =>
            rw [Option.some.injEq, Prod.mk.injEq] at h
            obtain ⟨hm, hr⟩ := h
            subst hm hr
            have hcs : cs = "trips_".data ++ d1 :: d2 :: '_' :: d3 :: d4 :: '_' :: cs2 :=
              stripLit_sound _ _ _ hs
            have hdrop : List.dropWhile (fun c => c.isAlpha) cs2 = "-csv.aspx".data ++ r2 :=
              stripLit_sound _ _ _ hstrip
            have hsplit := List.takeWhile_append_dropWhile (p := fun c => c.isAlpha) (l := cs2)
            have hcs2 : cs2 = List.takeWhile (fun c => c.isAlpha) cs2 ++
                ("-csv.aspx".data ++ r2) := by
              conv_lhs => rw [← hsplit]
              rw [hdrop]
            constructor
            · rw [hcs]
              conv_lhs => rw [hcs2]
              simp
            · unfold tailFormB
              have hts : ("trips_".data ++ d1 :: d2 :: '_' :: d3 :: d4 :: '_' ::
                  List.takeWhile (fun c => c.isAlpha) cs2 ++ "-csv.aspx".data) =
                  "trips_".data ++ (d1 :: d2 :: '_' :: d3 :: d4 :: '_' ::
                  (List.takeWhile (fun c => c.isAlpha) cs2 ++ "-csv.aspx".data)) := by simp
              rw [hts, stripLit_append]
              dsimp only
              have hall : ∀ x ∈ List.takeWhile (fun c => c.isAlpha) cs2,
                  (fun c => c.isAlpha) x = true := fun x hx => List.mem_takeWhile_imp hx
              have htd := takeWhile_dropWhile_all_append (p := fun c => c.isAlpha) '-'
                (by decide) (List.takeWhile (fun c => c.isAlpha) cs2) "csv.aspx".data hall
              dsimp only at htd
              show (d1.isDigit && d2.isDigit && d3.isDigit && d4.isDigit &&
                !(List.takeWhile (fun c => c.isAlpha)
                  (List.takeWhile (fun c => c.isAlpha) cs2 ++
                    ['-', 'c', 's', 'v', '.', 'a', 's', 'p', 'x'])).isEmpty &&
                (List.dropWhile (fun c => c.isAlpha)
                  (List.takeWhile (fun c => c.isAlpha) cs2 ++
                    ['-', 'c', 's', 'v', '.', 'a', 's', 'p', 'x']) ==
                  ['-', 'c', 's', 'v', '.', 'a', 's', 'p', 'x'])) = true
              rw [htd.1, htd.2]
              simp [hd, hne]
      next hd => exact absurd h (by simp)
    next => exact absurd h (by simp)

/-- A successful lazy-middle match decomposes the remaining input into the
middle characters, a tail-form block, and the rest. -/
theorem lazyTail_sound :
    ∀ (cs acc out rest : List Char), lazyTail acc cs = some (out, rest) →
      ∃ mid tm, out = acc.reverse ++ mid ++ tm ∧ cs = mid ++ tm ++ rest ∧
        tailFormB tm = true
  | [], acc, out, rest => by
    intro h
    simp [lazyTail, show matchTail [] = none from rfl] at h
  | c :: cs', acc, out, rest => by
    intro h
    rw [lazyTail] at h
    cases hm : matchTail (c :: cs') with
    | some pr =>
      rw [hm] at h
      obtain ⟨m0, r0⟩ := pr
      rw [Option.some.injEq, Prod.mk.injEq] at h
      obtain ⟨hout, hrest⟩ := h
      obtain ⟨hdec, htf⟩ := matchTail_sound _ _ _ hm
      subst hout hrest
      exact ⟨[], m0, by simp, by simpa using hdec, htf⟩
    | none =>
      rw [hm] at h
      by_cases hc : c = '\n'
      · rw [if_pos hc] at h
        cases h
      · rw [if_neg hc] at h
        obtain ⟨mid, tm, hout, hcs, htf⟩ := lazyTail_sound cs' (c :: acc) out rest h
        refine ⟨c :: mid, tm, ?_, ?_, htf⟩
        · rw [hout]
          simp
        · rw [List.cons_append, List.cons_append, hcs]

/-- A successful `tryMatch` yields a prefix of the input that matches the
whole `get_links` pattern. -/
theorem tryMatch_sound (cs m : List Char) (h : tryMatch cs = some m) :
    (∃ rest, cs = m ++ rest) ∧ specMatchesB m = true := by
  unfold tryMatch at h
  cases hs : stripLit "getattachment/".data cs with
  | none =>
    rw [hs] at h
    cases h
  | some cs1 =>
    rw [hs] at h
    dsimp only at h
    cases hl : lazyTail [] cs1 with
    | none =>
      rw [hl] at h
      cases h
    | some pr =>
      rw [hl] at h
      obtain ⟨out, rest⟩ := pr
      rw [Option.some.injEq] at h
      obtain ⟨mid, tm, hout, hcs1, htf⟩ := lazyTail_sound cs1 [] out rest hl
      rw [List.reverse_nil, List.nil_append] at hout
      subst hout
      have hcs : cs = "getattachment/".data ++ cs1 := stripLit_sound _ _ _ hs
      constructor
      · refine ⟨rest, ?_⟩
        rw [hcs, hcs1, ← h]
        simp
      · have hspec : specMatchesB ("getattachment/".data ++ (mid ++ tm)) = true := by
          unfold specMatchesB
          rw [stripLit_append, List.any_eq_true]
          refine ⟨mid.length, List.mem_range.mpr ?_, ?_⟩
          · have := List.length_append mid tm
            omega
          · rw [List.drop_left]
            exact htf
        rw [← h]
        exact hspec

/-- Every match emitted by the `findall` scan matches the whole pattern and
is a contiguous substring of the scanned text. -/
theorem scanMatches_sound :
    ∀ (cs : List Char) (skip : Nat) (m : List Char), m ∈ scanMatches cs skip →
      specMatchesB m = true ∧ m <:+: cs
  | [], _, m => by
    intro h
    rw [scanMatches] at h
    cases h
  | c :: cs', Nat.succ k, m => by
    intro h
    rw [scanMatches] at h
    obtain ⟨hs, hi⟩ := scanMatches_sound cs' k m h
    exact ⟨hs, List.infix_cons hi⟩
  | c :: cs', 0, m => by
    intro h
    rw [scanMatches] at h
    cases ht : tryMatch (c :: cs') with
    | some m0 =>
      rw [ht] at h
      rcases List.mem_cons.mp h with hm | hm
      · subst hm
        obtain ⟨⟨rest, hdec⟩, hspec⟩ := tryMatch_sound _ _ ht
        exact ⟨hspec, ⟨[], rest, by rw [hdec]; simp⟩⟩
      · obtain ⟨hs, hi⟩ := scanMatches_sound cs' (m0.length - 1) m hm
        exact ⟨hs, List.infix_cons hi⟩
    | none =>
      rw [ht] at h
      obtain ⟨hs, hi⟩ := scanMatches_sound cs' 0 m h
      exact ⟨hs, List.infix_cons hi⟩

/-- C7 (amended): `get_links` returns the set of distinct URLs formed by
prefixing the portal base origin to each match of the pattern found by the
left-to-right, non-overlapping, lazy (shortest-first) scan of `re.findall`;
every returned match is a substring of the HTML matching the pattern
`getattachment/<anything>trips_<2-digit>_<2-digit>_<letters>-csv.aspx`, and
HTML with no matching substring yields the empty set without raising. (Not
every matching substring is returned: overlapping matches are skipped — see
the counterexample.) -/
theorem C7_get_links_amended :
    ∀ html : String,
      get_links html = ((findall html).map (fun l => EMT ++ String.mk l)).toFinset ∧
      (∀ m, m ∈ findall html → specMatchesB m = true ∧ m <:+: html.data) ∧
      ((∀ s, s <:+: html.data → specMatchesB s = false) → get_links html = ∅) := by
  intro html
  refine ⟨rfl, ?_, ?_⟩
  · intro m hm
    exact scanMatches_sound html.data 0 m hm
  · intro hall
    cases hf : findall html with
    | nil =>
      unfold get_links
      rw [hf]
      rfl
    | cons m t =>
      exfalso
      have hm : m ∈ findall html := by
        rw [hf]
        exact List.mem_cons_self _ _
      obtain ⟨hs, hi⟩ := scanMatches_sound html.data 0 m hm
      rw [hall m hi] at hs
      cases hs

/-- C7 counterexample: in `c7Html`, the whole text matches the pattern (with
the middle `<anything>` part swallowing the first tail and the separator),
and so does its 38-character prefix, but the non-overlapping scan only finds
the prefix: the base-prefixed whole text is a matching substring of the HTML
whose URL is *not* in the returned set, so the returned set is not the set of
all base-prefixed matching substrings. -/
theorem C7_counterexample :
    specMatchesB c7Html.data = true ∧
    c7Html.data <:+: c7Html.data ∧
    (EMT ++ c7Html) ∉ get_links c7Html ∧
    get_links c7Html = {EMT ++ "getattachment/trips_11_22_Nov-csv.aspx"} := by
  refine ⟨by decide, List.infix_refl _, by decide, by decide⟩

/-- Witness for C7 (amended): pattern-match soundness at a concrete HTML
fixture with one link, and the empty result on HTML with no matching
substring. -/
theorem C7_get_links_amended_witness :
    (specMatchesB "getattachment/ab/trips_21_10_October-csv.aspx".data = true ∧
      "getattachment/ab/trips_21_10_October-csv.aspx".data <:+:
        "<a href=getattachment/ab/trips_21_10_October-csv.aspx>".data) ∧
    get_links "" = ∅ :=
  ⟨(C7_get_links_amended "<a href=getattachment/ab/trips_21_10_October-csv.aspx>").2.1
      "getattachment/ab/trips_21_10_October-csv.aspx".data (by decide),
   (C7_get_links_amended "").2.2 (fun s hs => by
      rw [List.infix_nil.mp hs]
      rfl)⟩
